import Mathlib

/-!
Shallow embedding of the session runtime hub of this repository:
the SSE session manager in src/backend/ws_manager.py (class WebSocketManager
together with the module level SESSION_STATE dictionary) and the unified
audio control REST handler control_audio_playback in src/backend/main.py.

Python dictionaries are modelled as association lists with dictionary update
semantics (an existing key keeps its position, a new key is appended), and
asyncio.Queue objects as lists of messages with the fixed capacity 256 used
by the source (put_nowait drops the message when the queue is full).
Participant and playback dictionaries can miss keys in the source, so every
field is an Option; a read through dict.get with a default is modelled with
Option.getD.
-/

namespace WsManager

/-- A message pushed onto a client queue. The sentinel constructor models the
Python value None that makes the SSE drain loop exit; the other constructor
stands for any event dictionary not produced by the manager itself, carrying
its type discriminator. -/
inductive Msg where
  | sentinel
  | sessionEnded
  | kicked (reason : String)
  | participantKicked (participant_id : Int)
  | participantMuted (participant_id : Int) (is_muted : Bool)
  | audioSelected (audio_id : Int) (title : Option String)
  | audioPlay (audio_id : Int) (speed : ℚ) (position : ℚ)
  | audioPause (position : ℚ)
  | audioEvent (action : String) (audio_id : Int) (speed : ℚ) (position : ℚ)
      (title : String) (duration : Option ℚ)
  | other (typ : String)
  deriving DecidableEq

/-- The type discriminator of a message, as message.get applied to the key
named type would return it in the source. -/
def msgType : Msg → Option String
  | Msg.sentinel => none
  | Msg.sessionEnded => some "session_ended"
  | Msg.kicked _ => some "kicked"
  | Msg.participantKicked _ => some "participant_kicked"
  | Msg.participantMuted _ _ => some "participant_muted"
  | Msg.audioSelected _ _ => some "audio_selected"
  | Msg.audioPlay _ _ _ => some "audio_play"
  | Msg.audioPause _ => some "audio_pause"
  | Msg.audioEvent action _ _ _ _ _ => some (String.append "audio_" action)
  | Msg.other typ => some typ

/-- Queue capacity: asyncio.Queue(maxsize=256) in WebSocketManager.connect. -/
def maxsize : Nat := 256

/-- queue.put_nowait(message) wrapped in try or except QueueFull: on a full
queue the message is dropped and the queue is unchanged. -/
def put_nowait (q : List Msg) (m : Msg) : List Msg :=
  if q.length < maxsize then q ++ [m] else q

/-- Association list lookup with Python dictionary key semantics. -/
def lookupKey {α : Type} (k : Int) : List (Int × α) → Option α
  | [] => none
  | p :: t => if p.1 = k then some p.2 else lookupKey k t

/-- Python dictionary assignment d[k] = v: an existing key keeps its position
and gets the new value, a new key is appended at the end. -/
def dictSet {α : Type} (l : List (Int × α)) (k : Int) (v : α) : List (Int × α) :=
  if (lookupKey k l).isSome then l.map (fun p => (p.1, if p.1 = k then v else p.2))
  else l ++ [(k, v)]

/-- Python dictionary d.pop(k, None): removes the key if present. -/
def dictPop {α : Type} : List (Int × α) → Int → List (Int × α)
  | [], _ => []
  | p :: t, k => if p.1 = k then dictPop t k else p :: dictPop t k

/-- Adding a key to the key set of the connections dictionary. -/
def keyAdd (l : List Int) (k : Int) : List Int :=
  if k ∈ l then l else l ++ [k]

/-- Removing a key from the key set of the connections dictionary. -/
def keyRemove : List Int → Int → List Int
  | [], _ => []
  | x :: t, k => if x = k then keyRemove t k else x :: keyRemove t k

/-- A participant metadata dictionary. mute_participant can create a partial
entry holding only is_muted, so every field is optional. -/
structure Participant where
  user_id : Option Int := none
  name : Option String := none
  is_muted : Option Bool := none
  raised_hand : Option Bool := none
  is_teacher : Option Bool := none
  deriving DecidableEq

/-- The per session playback dictionary. audio_select on an unknown session
creates it empty, so every field is optional; a value of none stands for a
missing key or the Python value None (the source only reads these fields
through dict.get, which does not distinguish the two). -/
structure Playback where
  audio_id : Option Int := none
  status : Option String := none
  speed : Option ℚ := none
  position : Option ℚ := none
  title : Option String := none
  duration : Option ℚ := none
  deriving DecidableEq

/-- One value of the SESSION_STATE dictionary. The connections dictionary
holds the same queue objects as the manager field active, which is the only
map the delivery code reads, so connections is modelled by its key set. -/
structure SessionEntry where
  connections : List Int := []
  participants : List (Int × Participant) := []
  playback : Playback := {}
  deriving DecidableEq

/-- The playback dictionary installed by WebSocketManager.connect for a new
session. -/
def connectDefaultPlayback : Playback :=
  { audio_id := none, status := some "stopped", speed := some 1,
    position := some 0, title := none, duration := none }

/-- The SESSION_STATE default entry installed by WebSocketManager.connect. -/
def connectDefaultSession : SessionEntry :=
  { connections := [], participants := [], playback := connectDefaultPlayback }

/-- The SESSION_STATE default entry installed by audio_select: its playback
dictionary starts empty. -/
def emptySession : SessionEntry :=
  { connections := [], participants := [], playback := {} }

/-- The manager state: the field active is WebSocketManager.active mapping
session id to the dictionary from participant id to that participant queue,
and sessionState is the module level SESSION_STATE dictionary. -/
structure Hub where
  active : List (Int × List (Int × List Msg)) := []
  sessionState : List (Int × SessionEntry) := []
  deriving DecidableEq

/-- WebSocketManager.connect: registers a fresh queue for the participant in
both maps and upserts the roster entry, preserving existing is_muted and
raised_hand through dict.get with default False while taking user_id, name
and is_teacher from the call. -/
def Hub.connect (h : Hub) (session_id participant_id user_id : Int)
    (name : String) (is_teacher : Bool) : Hub :=
  let q : List Msg := []
  let inner := (lookupKey session_id h.active).getD []
  let active' := dictSet h.active session_id (dictSet inner participant_id q)
  let s := (lookupKey session_id h.sessionState).getD connectDefaultSession
  let existing := (lookupKey participant_id s.participants).getD {}
  let entry : Participant :=
    { user_id := some user_id, name := some name,
      is_muted := some (existing.is_muted.getD false),
      raised_hand := some (existing.raised_hand.getD false),
      is_teacher := some is_teacher }
  let s' := { s with connections := keyAdd s.connections participant_id,
                     participants := dictSet s.participants participant_id entry }
  { active := active', sessionState := dictSet h.sessionState session_id s' }

/-- WebSocketManager.disconnect: removes the queue from both maps, keeps the
roster entry and everything else. -/
def Hub.disconnect (h : Hub) (session_id participant_id : Int) : Hub :=
  let active' := match lookupKey session_id h.active with
    | none => h.active
    | some conns => dictSet h.active session_id (dictPop conns participant_id)
  let sessions' := match lookupKey session_id h.sessionState with
    | none => h.sessionState
    | some s =>
      let s' := { s with connections := keyRemove s.connections participant_id }
      dictSet h.sessionState session_id s'
  { active := active', sessionState := sessions' }

/-- WebSocketManager.send_personal: one non blocking push onto a queue. -/
def send_personal (queue : List Msg) (message : Msg) : List Msg :=
  put_nowait queue message

/-- WebSocketManager.broadcast: snapshots the connections of the session from
the active map, returns unchanged when there are none, and otherwise pushes
the message onto every queue whose participant id is not excluded; a full
queue drops the message without affecting the other recipients. -/
def Hub.broadcast (h : Hub) (session_id : Int) (message : Msg)
    (exclude : List Int) : Hub :=
  if ((lookupKey session_id h.active).getD []) = [] then h
  else
    let conns' := ((lookupKey session_id h.active).getD []).map
      (fun pq => (pq.1, if pq.1 ∈ exclude then pq.2 else put_nowait pq.2 message))
    { h with active := dictSet h.active session_id conns' }

/-- Result of close_session: the new hub together with the final contents of
the queues that were registered for the session at call time (Transport keeps
draining those queue objects after the maps drop them). -/
structure CloseResult where
  hub : Hub
  channels : List (Int × List Msg)

/-- WebSocketManager.close_session: pushes session_ended then the terminal
sentinel None onto every registered queue (inside one try block, so a raise
of QueueFull on the first push also skips the second), then pops the session
from both maps. -/
def Hub.close_session (h : Hub) (session_id : Int) : CloseResult :=
  let conns := (lookupKey session_id h.active).getD []
  let channels := conns.map
    (fun pq => (pq.1, put_nowait (put_nowait pq.2 Msg.sessionEnded) Msg.sentinel))
  { hub := { active := dictPop h.active session_id,
             sessionState := dictPop h.sessionState session_id },
    channels := channels }

/-- WebSocketManager.mute_participant: returns unchanged when the session is
unknown; otherwise writes is_muted through participants.setdefault (creating
a fresh entry when the participant is unknown) and broadcasts the
participant_muted event. The second component collects the messages passed to
self.broadcast by this call. -/
def Hub.mute_participant (h : Hub) (session_id participant_id : Int)
    (mute : Bool) : Hub × List Msg :=
  match lookupKey session_id h.sessionState with
  | none => (h, [])
  | some s =>
    let existing := (lookupKey participant_id s.participants).getD {}
    let entry : Participant := { existing with is_muted := some mute }
    let s' := { s with participants := dictSet s.participants participant_id entry }
    let h' : Hub := { h with sessionState := dictSet h.sessionState session_id s' }
    (h'.broadcast session_id (Msg.participantMuted participant_id mute) [],
     [Msg.participantMuted participant_id mute])

/-- Result of kick_participant: the new hub, the final contents of the kicked
participant queue when one was registered (popped from the maps but still
drained by Transport), and the messages passed to self.broadcast. -/
structure KickResult where
  hub : Hub
  queue : Option (List Msg)
  msgs : List Msg

/-- WebSocketManager.kick_participant: pops the queue and the roster entry,
pushes kicked with the reason (default Removed by teacher) and the sentinel
onto the detached queue when one existed, then broadcasts participant_kicked
over the remaining connections. -/
def Hub.kick_participant (h : Hub) (session_id participant_id : Int)
    (reason : Option String) : KickResult :=
  let q0 := lookupKey participant_id ((lookupKey session_id h.active).getD [])
  let active' := match lookupKey session_id h.active with
    | none => h.active
    | some conns => dictSet h.active session_id (dictPop conns participant_id)
  let sessions' := match lookupKey session_id h.sessionState with
    | none => h.sessionState
    | some s =>
      let s' := { s with connections := keyRemove s.connections participant_id,
                         participants := dictPop s.participants participant_id }
      dictSet h.sessionState session_id s'
  let queue := q0.map (fun q =>
    put_nowait (put_nowait q (Msg.kicked (reason.getD "Removed by teacher")))
      Msg.sentinel)
  let h1 : Hub := { active := active', sessionState := sessions' }
  { hub := h1.broadcast session_id (Msg.participantKicked participant_id) [],
    queue := queue,
    msgs := [Msg.participantKicked participant_id] }

/-- WebSocketManager.audio_select: creates the session entry with an empty
playback dictionary when missing, sets audio_id, title, status stopped and
position 0 and broadcasts audio_selected. -/
def Hub.audio_select (h : Hub) (session_id audio_id : Int)
    (title : Option String) : Hub × List Msg :=
  let s := (lookupKey session_id h.sessionState).getD emptySession
  let s' := { s with playback :=
    { s.playback with audio_id := some audio_id, title := title,
                      status := some "stopped", position := some 0 } }
  let h' : Hub := { h with sessionState := dictSet h.sessionState session_id s' }
  (h'.broadcast session_id (Msg.audioSelected audio_id title) [],
   [Msg.audioSelected audio_id title])

/-- WebSocketManager.audio_play: returns unchanged when the session is
unknown; otherwise sets status playing, audio_id, speed and position and
broadcasts audio_play. -/
def Hub.audio_play (h : Hub) (session_id audio_id : Int)
    (speed position : ℚ) : Hub × List Msg :=
  match lookupKey session_id h.sessionState with
  | none => (h, [])
  | some s =>
    let s' := { s with playback :=
      { s.playback with status := some "playing", audio_id := some audio_id,
                        speed := some speed, position := some position } }
    let h' : Hub := { h with sessionState := dictSet h.sessionState session_id s' }
    (h'.broadcast session_id (Msg.audioPlay audio_id speed position) [],
     [Msg.audioPlay audio_id speed position])

/-- WebSocketManager.audio_pause: returns unchanged when the session is
unknown; otherwise sets status paused and the position, leaving audio_id as
it was, and broadcasts audio_pause. -/
def Hub.audio_pause (h : Hub) (session_id : Int) (position : ℚ) : Hub × List Msg :=
  match lookupKey session_id h.sessionState with
  | none => (h, [])
  | some s =>
    let s' := { s with playback :=
      { s.playback with status := some "paused", position := some position } }
    let h' : Hub := { h with sessionState := dictSet h.sessionState session_id s' }
    (h'.broadcast session_id (Msg.audioPause position) [],
     [Msg.audioPause position])

/-- The request body of the audio control endpoint, schemas.AudioPlaybackControl. -/
structure AudioPlaybackControl where
  audio_id : Option Int := none
  speed : ℚ := 1
  position : ℚ := 0
  action : String

/-- The control_audio_playback handler of src/backend/main.py. The database
is abstracted as a map from audio id to title and optional duration of the
stored audio file. Errors carry the HTTP status code and detail. On success
the result is the new hub, the messages passed to ws_mgr.broadcast and the
final value of control.action (play, pause or seek, where a seek issued while
playing is rewritten to play before broadcasting). -/
def control_audio_playback (h : Hub) (db : Int → Option (String × Option ℚ))
    (session_id : Int) (control : AudioPlaybackControl) :
    Except (Nat × String) (Hub × List Msg × String) :=
  match lookupKey session_id h.sessionState with
  | none => .error (404, "Session not found")
  | some s =>
    match (match control.audio_id with
           | some a => some a
           | none => s.playback.audio_id) with
    | none => .error (400, "No audio selected")
    | some aid =>
      match db aid with
      | none => .error (404, "Audio file not found")
      | some (title, duration) =>
        if control.action = "play" then
          let p' : Playback :=
            { s.playback with audio_id := some aid, status := some "playing",
                              speed := some control.speed,
                              position := some control.position,
                              title := some title, duration := duration }
          let s' := { s with playback := p' }
          let h' : Hub := { h with sessionState := dictSet h.sessionState session_id s' }
          let msg := Msg.audioEvent "play" aid control.speed control.position
            title duration
          .ok (h'.broadcast session_id msg [], [msg], "play")
        else if control.action = "pause" then
          let p' : Playback :=
            { s.playback with status := some "paused",
                              position := some control.position }
          let s' := { s with playback := p' }
          let h' : Hub := { h with sessionState := dictSet h.sessionState session_id s' }
          let msg := Msg.audioEvent "pause" aid control.speed control.position
            title duration
          .ok (h'.broadcast session_id msg [], [msg], "pause")
        else if control.action = "seek" then
          let p' : Playback :=
            { s.playback with position := some control.position }
          let act := if p'.status = some "playing" then "play" else "seek"
          let s' := { s with playback := p' }
          let h' : Hub := { h with sessionState := dictSet h.sessionState session_id s' }
          let msg := Msg.audioEvent act aid control.speed control.position
            title duration
          .ok (h'.broadcast session_id msg [], [msg], act)
        else .error (400, "Invalid action")

/-- The queue registered in the active map for a participant of a session. -/
def queueAt (h : Hub) (session_id participant_id : Int) : Option (List Msg) :=
  (lookupKey session_id h.active).bind (lookupKey participant_id)

/-- The roster entry of a participant of a session. -/
def participantAt (h : Hub) (session_id participant_id : Int) : Option Participant :=
  (lookupKey session_id h.sessionState).bind
    (fun s => lookupKey participant_id s.participants)

/-- The playback dictionary of a session. -/
def playbackAt (h : Hub) (session_id : Int) : Option Playback :=
  (lookupKey session_id h.sessionState).map SessionEntry.playback

/-- The connections key set of a session. -/
def connAt (h : Hub) (session_id : Int) : List Int :=
  ((lookupKey session_id h.sessionState).map SessionEntry.connections).getD []

/-- The playback invariant of the specification: a status other than stopped
requires a selected audio id. The status is read as the source reads it,
through dict.get with default stopped. -/
def PlaybackOk (p : Playback) : Prop :=
  p.status.getD "stopped" ≠ "stopped" → p.audio_id ≠ none

instance (p : Playback) : Decidable (PlaybackOk p) :=
  if h1 : p.status.getD "stopped" = "stopped" then
    isTrue (fun h2 => absurd h1 h2)
  else if h2 : p.audio_id = none then
    isFalse (fun f => (f h1) h2)
  else
    isTrue (fun _ => h2)

/-- The playback invariant holds in every session of the hub. -/
def InvAll (h : Hub) : Prop :=
  ∀ p ∈ h.sessionState, PlaybackOk p.2.playback

instance (h : Hub) : Decidable (InvAll h) := by
  unfold InvAll; exact List.decidableBAll _ _

/-! Helper lemmas about the dictionary model. -/

theorem lookupKey_setmap {α : Type} (l : List (Int × α)) (k k' : Int) (v : α) :
    lookupKey k' (l.map (fun p => (p.1, if p.1 = k then v else p.2))) =
      (lookupKey k' l).map (fun b => if k' = k then v else b) := by
  induction l with
  | nil => rfl
  | cons p t ih =>
    by_cases h : p.1 = k'
    · subst h; simp [lookupKey]
    · simp [lookupKey, h, ih]

theorem lookupKey_bmap (conns : List (Int × List Msg)) (ex : List Int) (m : Msg)
    (p : Int) :
    lookupKey p (conns.map (fun pq => (pq.1, if pq.1 ∈ ex then pq.2
                                             else put_nowait pq.2 m))) =
      (lookupKey p conns).map (fun q => if p ∈ ex then q else put_nowait q m) := by
  induction conns with
  | nil => rfl
  | cons q t ih =>
    by_cases h : q.1 = p
    · subst h; simp [lookupKey]
    · simp [lookupKey, h, ih]

theorem keys_setmap {α : Type} (l : List (Int × α)) (k : Int) (v : α) :
    (l.map (fun p => (p.1, if p.1 = k then v else p.2))).map Prod.fst =
      l.map Prod.fst := by
  induction l with
  | nil => rfl
  | cons p t ih => simp only [List.map_cons]; rw [ih]

theorem keys_bmap (conns : List (Int × List Msg)) (ex : List Int) (m : Msg) :
    (conns.map (fun pq => (pq.1, if pq.1 ∈ ex then pq.2
                                 else put_nowait pq.2 m))).map Prod.fst =
      conns.map Prod.fst := by
  induction conns with
  | nil => rfl
  | cons q t ih => simp only [List.map_cons]; rw [ih]

theorem lookupKey_append_singleton_self {α : Type} (l : List (Int × α)) (k : Int)
    (v : α) (hn : lookupKey k l = none) :
    lookupKey k (l ++ [(k, v)]) = some v := by
  induction l with
  | nil => simp [lookupKey]
  | cons p t ih =>
    simp only [lookupKey, List.cons_append] at hn ⊢
    by_cases h : p.1 = k
    · rw [if_pos h] at hn; cases hn
    · rw [if_neg h] at hn ⊢; exact ih hn

theorem lookupKey_append_singleton_ne {α : Type} (l : List (Int × α)) (k k' : Int)
    (v : α) (hne : k' ≠ k) :
    lookupKey k' (l ++ [(k, v)]) = lookupKey k' l := by
  induction l with
  | nil =>
    simp only [List.nil_append, lookupKey]
    rw [if_neg (fun hh => hne hh.symm)]
  | cons p t ih =>
    simp only [lookupKey, List.cons_append]
    by_cases h : p.1 = k'
    · rw [if_pos h, if_pos h]
    · rw [if_neg h, if_neg h]; exact ih

theorem lookupKey_dictSet_self {α : Type} (l : List (Int × α)) (k : Int) (v : α) :
    lookupKey k (dictSet l k v) = some v := by
  unfold dictSet
  by_cases hs : (lookupKey k l).isSome
  · rw [if_pos hs, lookupKey_setmap]
    obtain ⟨w, hw⟩ := Option.isSome_iff_exists.mp hs
    rw [hw]; simp
  · rw [if_neg hs]
    exact lookupKey_append_singleton_self l k v (Option.not_isSome_iff_eq_none.mp hs)

theorem lookupKey_dictSet_ne {α : Type} (l : List (Int × α)) (k k' : Int) (v : α)
    (hne : k' ≠ k) :
    lookupKey k' (dictSet l k v) = lookupKey k' l := by
  unfold dictSet
  by_cases hs : (lookupKey k l).isSome
  · rw [if_pos hs, lookupKey_setmap]
    cases lookupKey k' l <;> simp [hne]
  · rw [if_neg hs]
    exact lookupKey_append_singleton_ne l k k' v hne

theorem lookupKey_dictPop_self {α : Type} (l : List (Int × α)) (k : Int) :
    lookupKey k (dictPop l k) = none := by
  induction l with
  | nil => rfl
  | cons p t ih =>
    simp only [dictPop]
    by_cases h : p.1 = k
    · rw [if_pos h]; exact ih
    · rw [if_neg h]; simp only [lookupKey]; rw [if_neg h]; exact ih

theorem lookupKey_dictPop_ne {α : Type} (l : List (Int × α)) (k k' : Int)
    (hne : k' ≠ k) :
    lookupKey k' (dictPop l k) = lookupKey k' l := by
  induction l with
  | nil => rfl
  | cons p t ih =>
    simp only [dictPop, lookupKey]
    by_cases h : p.1 = k
    · rw [if_pos h]
      have hne' : ¬ (p.1 = k') := by rw [h]; exact fun hh => hne hh.symm
      rw [if_neg hne']; exact ih
    · rw [if_neg h]; simp only [lookupKey]
      by_cases h2 : p.1 = k'
      · rw [if_pos h2, if_pos h2]
      · rw [if_neg h2, if_neg h2]; exact ih

theorem lookupKey_none_forall {α : Type} (l : List (Int × α)) (k : Int)
    (hn : lookupKey k l = none) : ∀ p ∈ l, p.1 ≠ k := by
  induction l with
  | nil => intro p hp; cases hp
  | cons q t ih =>
    simp only [lookupKey] at hn
    by_cases h : q.1 = k
    · rw [if_pos h] at hn; cases hn
    · rw [if_neg h] at hn
      intro p hp
      rcases List.mem_cons.mp hp with h1 | h1
      · rw [h1]; exact h
      · exact ih hn p h1

theorem dictPop_eq_self {α : Type} (l : List (Int × α)) (k : Int)
    (hall : ∀ p ∈ l, p.1 ≠ k) : dictPop l k = l := by
  induction l with
  | nil => rfl
  | cons p t ih =>
    simp only [dictPop]
    rw [if_neg (hall p (List.mem_cons_self p t))]
    rw [ih (fun q hq => hall q (List.mem_cons_of_mem p hq))]

theorem keys_not_mem_forall {α : Type} (l : List (Int × α)) (k : Int)
    (hk : k ∉ l.map Prod.fst) : ∀ p ∈ l, p.1 ≠ k := by
  intro p hp he
  exact hk (he ▸ List.mem_map_of_mem Prod.fst hp)

theorem setmap_eq_self_of_forall_ne {α : Type} (l : List (Int × α)) (k : Int)
    (v : α) (hall : ∀ p ∈ l, p.1 ≠ k) :
    l.map (fun p => (p.1, if p.1 = k then v else p.2)) = l := by
  induction l with
  | nil => rfl
  | cons p t ih =>
    simp only [List.map_cons]
    rw [if_neg (hall p (List.mem_cons_self p t))]
    rw [ih (fun q hq => hall q (List.mem_cons_of_mem p hq))]

theorem setmap_eq_self {α : Type} (l : List (Int × α)) (k : Int) (v : α)
    (hv : lookupKey k l = some v) (hnd : (l.map Prod.fst).Nodup) :
    l.map (fun p => (p.1, if p.1 = k then v else p.2)) = l := by
  induction l with
  | nil => cases hv
  | cons p t ih =>
    obtain ⟨a, b⟩ := p
    simp only [List.map_cons, List.nodup_cons] at hnd
    by_cases h : a = k
    · have hv' : b = v := by simpa [lookupKey, h] using hv
      subst hv'
      have htail := setmap_eq_self_of_forall_ne t k b (keys_not_mem_forall t k (h ▸ hnd.1))
      simp [h, htail]
    · have hv' : lookupKey k t = some v := by simpa [lookupKey, h] using hv
      have htail := ih hv' hnd.2
      simp [h, htail]

theorem dictSet_eq_self {α : Type} (l : List (Int × α)) (k : Int) (v : α)
    (hv : lookupKey k l = some v) (hnd : (l.map Prod.fst).Nodup) :
    dictSet l k v = l := by
  unfold dictSet
  rw [if_pos (by rw [hv]; rfl)]
  exact setmap_eq_self l k v hv hnd

theorem mem_dictSet {α : Type} (l : List (Int × α)) (k : Int) (v : α) (q : Int × α)
    (hq : q ∈ dictSet l k v) : q ∈ l ∨ q.2 = v := by
  unfold dictSet at hq
  by_cases hs : (lookupKey k l).isSome
  · rw [if_pos hs] at hq
    obtain ⟨p, hp, he⟩ := List.mem_map.mp hq
    by_cases h : p.1 = k
    · right; rw [← he]; simp [h]
    · left; rw [← he, if_neg h]; exact hp
  · rw [if_neg hs] at hq
    rcases List.mem_append.mp hq with h1 | h1
    · left; exact h1
    · right; rw [List.mem_singleton.mp h1]

theorem invAll_dictSet (l : List (Int × SessionEntry)) (k : Int) (s : SessionEntry)
    (hl : ∀ p ∈ l, PlaybackOk p.2.playback) (hsok : PlaybackOk s.playback) :
    ∀ p ∈ dictSet l k s, PlaybackOk p.2.playback := by
  intro p hp
  rcases mem_dictSet l k s p hp with h | h
  · exact hl p h
  · rw [h]; exact hsok

theorem mem_keyRemove (l : List Int) (k x : Int) :
    x ∈ keyRemove l k ↔ x ∈ l ∧ x ≠ k := by
  induction l with
  | nil => simp [keyRemove]
  | cons a t ih =>
    simp only [keyRemove]
    by_cases h : a = k
    · rw [if_pos h, ih]
      constructor
      · rintro ⟨hx, hne⟩; exact ⟨List.mem_cons_of_mem _ hx, hne⟩
      · rintro ⟨hx, hne⟩
        rcases List.mem_cons.mp hx with h1 | h1
        · exact absurd (h1.trans h) hne
        · exact ⟨h1, hne⟩
    · rw [if_neg h]
      constructor
      · intro hx
        rcases List.mem_cons.mp hx with h1 | h1
        · refine ⟨by rw [h1]; exact List.mem_cons_self _ _, ?_⟩
          intro he; exact h (h1.symm.trans he)
        · have := ih.mp h1; exact ⟨List.mem_cons_of_mem _ this.1, this.2⟩
      · rintro ⟨hx, hne⟩
        rcases List.mem_cons.mp hx with h1 | h1
        · rw [h1]; exact List.mem_cons_self _ _
        · exact List.mem_cons_of_mem _ (ih.mpr ⟨h1, hne⟩)

theorem keyRemove_eq_self (l : List Int) (k : Int) (hk : k ∉ l) :
    keyRemove l k = l := by
  induction l with
  | nil => rfl
  | cons a t ih =>
    simp only [keyRemove]
    have h1 : ¬ (a = k) := by intro he; rw [he] at hk; exact hk (List.mem_cons_self k t)
    rw [if_neg h1, ih (fun hh => hk (List.mem_cons_of_mem a hh))]

/-! Helper lemmas about broadcast. -/

theorem broadcast_sessionState (h : Hub) (sid : Int) (m : Msg) (ex : List Int) :
    (h.broadcast sid m ex).sessionState = h.sessionState := by
  unfold Hub.broadcast
  by_cases hc : ((lookupKey sid h.active).getD []) = []
  · rw [if_pos hc]
  · rw [if_neg hc]

theorem queueAt_broadcast (h : Hub) (sid : Int) (m : Msg) (ex : List Int)
    (s p : Int) :
    queueAt (h.broadcast sid m ex) s p =
      if s = sid then
        (lookupKey p ((lookupKey sid h.active).getD [])).map
          (fun q => if p ∈ ex then q else put_nowait q m)
      else queueAt h s p := by
  unfold Hub.broadcast queueAt
  by_cases hc : ((lookupKey sid h.active).getD []) = []
  · rw [if_pos hc]
    by_cases hs : s = sid
    · rw [if_pos hs]; subst hs
      cases hl : lookupKey s h.active with
      | none => simp [hl, lookupKey]
      | some conns =>
        rw [hl] at hc
        rw [Option.getD_some] at hc
        subst hc
        simp [hl, lookupKey]
    · rw [if_neg hs]
  · rw [if_neg hc]
    by_cases hs : s = sid
    · subst hs; rw [if_pos rfl]
      dsimp only
      rw [lookupKey_dictSet_self]
      exact lookupKey_bmap _ ex m p
    · rw [if_neg hs]
      dsimp only
      rw [lookupKey_dictSet_ne _ _ _ _ hs]

theorem activeKeys_broadcast (h : Hub) (sid : Int) (m : Msg) (ex : List Int)
    (s : Int) :
    (lookupKey s (h.broadcast sid m ex).active).map (fun cs => cs.map Prod.fst) =
      (lookupKey s h.active).map (fun cs => cs.map Prod.fst) := by
  unfold Hub.broadcast
  by_cases hc : ((lookupKey sid h.active).getD []) = []
  · rw [if_pos hc]
  · rw [if_neg hc]
    by_cases hs : s = sid
    · subst hs
      dsimp only
      rw [lookupKey_dictSet_self]
      cases hl : lookupKey s h.active with
      | none => rw [hl] at hc; exact absurd rfl hc
      | some conns => simp [keys_bmap]
    · dsimp only
      rw [lookupKey_dictSet_ne _ _ _ _ hs]

/-! Projection lemmas for the compound hub operations. -/

theorem kick_queue (h : Hub) (sid pid : Int) (reason : Option String) :
    (h.kick_participant sid pid reason).queue =
      (lookupKey pid ((lookupKey sid h.active).getD [])).map
        (fun ql => put_nowait
          (put_nowait ql (Msg.kicked (reason.getD "Removed by teacher")))
          Msg.sentinel) := by
  unfold Hub.kick_participant
  cases hA : lookupKey sid h.active <;> cases hS : lookupKey sid h.sessionState <;> rfl

theorem kick_msgs (h : Hub) (sid pid : Int) (reason : Option String) :
    (h.kick_participant sid pid reason).msgs = [Msg.participantKicked pid] := by
  unfold Hub.kick_participant
  cases hA : lookupKey sid h.active <;> cases hS : lookupKey sid h.sessionState <;> rfl

theorem kick_hub_queueAt (h : Hub) (sid pid : Int) (reason : Option String)
    (conns : List (Int × List Msg)) (hl : lookupKey sid h.active = some conns)
    (p : Int) :
    queueAt (h.kick_participant sid pid reason).hub sid p =
      (lookupKey p (dictPop conns pid)).map
        (fun ql => put_nowait ql (Msg.participantKicked pid)) := by
  unfold Hub.kick_participant
  rw [hl]
  cases hS : lookupKey sid h.sessionState <;>
    (dsimp only; rw [queueAt_broadcast, if_pos rfl]; dsimp only;
     rw [lookupKey_dictSet_self, Option.getD_some]; simp)

theorem kick_hub_sessionState (h : Hub) (sid pid : Int) (reason : Option String) :
    (h.kick_participant sid pid reason).hub.sessionState =
      (match lookupKey sid h.sessionState with
       | none => h.sessionState
       | some s => dictSet h.sessionState sid
           { s with connections := keyRemove s.connections pid,
                    participants := dictPop s.participants pid }) := by
  unfold Hub.kick_participant
  cases hA : lookupKey sid h.active <;> cases hS : lookupKey sid h.sessionState <;>
    (dsimp only; rw [broadcast_sessionState])

theorem mute_eq_of_none (h : Hub) (sid pid : Int) (m : Bool)
    (hS : lookupKey sid h.sessionState = none) :
    h.mute_participant sid pid m = (h, []) := by
  unfold Hub.mute_participant; rw [hS]

theorem mute_participantAt (h : Hub) (sid pid : Int) (m : Bool) (s : SessionEntry)
    (hS : lookupKey sid h.sessionState = some s) :
    participantAt (h.mute_participant sid pid m).1 sid pid =
      some { (lookupKey pid s.participants).getD {} with is_muted := some m } := by
  unfold Hub.mute_participant
  rw [hS]
  dsimp only
  unfold participantAt
  rw [broadcast_sessionState]
  dsimp only
  rw [lookupKey_dictSet_self]
  exact lookupKey_dictSet_self _ _ _

theorem mute_msgs_of_some (h : Hub) (sid pid : Int) (m : Bool) (s : SessionEntry)
    (hS : lookupKey sid h.sessionState = some s) :
    (h.mute_participant sid pid m).2 = [Msg.participantMuted pid m] := by
  unfold Hub.mute_participant
  rw [hS]

theorem lookupKey_mem {α : Type} (l : List (Int × α)) (k : Int) (v : α)
    (hv : lookupKey k l = some v) : (k, v) ∈ l := by
  induction l with
  | nil => cases hv
  | cons p t ih =>
    simp only [lookupKey] at hv
    by_cases hh : p.1 = k
    · rw [if_pos hh] at hv
      injection hv with hv
      have he : (k, v) = p := by rw [← hh, ← hv]
      rw [he]
      exact List.mem_cons_self p t
    · rw [if_neg hh] at hv
      exact List.mem_cons_of_mem p (ih hv)

theorem invAll_mk (A : List (Int × List (Int × List Msg)))
    (l : List (Int × SessionEntry)) (k : Int) (s : SessionEntry)
    (hl : ∀ p ∈ l, PlaybackOk p.2.playback) (hs : PlaybackOk s.playback) :
    InvAll (Hub.mk A (dictSet l k s)) :=
  fun p hp => invAll_dictSet l k s hl hs p hp

theorem invAll_broadcast (h : Hub) (sid : Int) (m : Msg) (ex : List Int)
    (hi : InvAll h) : InvAll (h.broadcast sid m ex) := by
  unfold InvAll at *
  rw [broadcast_sessionState]
  exact hi

theorem control_play_eq (h : Hub) (db : Int → Option (String × Option ℚ))
    (sid : Int) (sp pos : ℚ) (s : SessionEntry) (aid : Int) (t : String)
    (d : Option ℚ) (hS : lookupKey sid h.sessionState = some s)
    (hres : s.playback.audio_id = some aid) (hdb : db aid = some (t, d)) :
    control_audio_playback h db sid ⟨none, sp, pos, "play"⟩ =
      .ok ((Hub.mk h.active (dictSet h.sessionState sid
              ⟨s.connections, s.participants,
               ⟨some aid, some "playing", some sp, some pos, some t, d⟩⟩)).broadcast
             sid (Msg.audioEvent "play" aid sp pos t d) [],
           [Msg.audioEvent "play" aid sp pos t d], "play") := by
  unfold control_audio_playback
  simp [hS, hres, hdb]

theorem control_seek_eq (h : Hub) (db : Int → Option (String × Option ℚ))
    (sid : Int) (sp pos : ℚ) (s : SessionEntry) (aid : Int) (t : String)
    (d : Option ℚ) (hS : lookupKey sid h.sessionState = some s)
    (hres : s.playback.audio_id = some aid) (hdb : db aid = some (t, d)) :
    control_audio_playback h db sid ⟨none, sp, pos, "seek"⟩ =
      .ok ((Hub.mk h.active (dictSet h.sessionState sid
              ⟨s.connections, s.participants,
               ⟨s.playback.audio_id, s.playback.status, s.playback.speed,
                some pos, s.playback.title, s.playback.duration⟩⟩)).broadcast
             sid (Msg.audioEvent
               (if s.playback.status = some "playing" then "play" else "seek")
               aid sp pos t d) [],
           [Msg.audioEvent
              (if s.playback.status = some "playing" then "play" else "seek")
              aid sp pos t d],
           (if s.playback.status = some "playing" then "play" else "seek")) := by
  unfold control_audio_playback
  simp [hS, hres, hdb]

/-!
Claim theorems.
-/

/-- C9: broadcast and send_personal leave all shared hub state unchanged —
the SESSION_STATE registry (rosters and playback included) is untouched, the
per session channel key structure of the active map is untouched, and
delivery only ever appends the message to a queue that was already
registered; send_personal either drops or appends its message. -/
theorem c9_delivery_frame (h : Hub) (sid : Int) (m : Msg) (ex : List Int) :
    (h.broadcast sid m ex).sessionState = h.sessionState ∧
    (∀ s, (lookupKey s (h.broadcast sid m ex).active).map (fun cs => cs.map Prod.fst) =
          (lookupKey s h.active).map (fun cs => cs.map Prod.fst)) ∧
    (∀ s p q, queueAt h s p = some q →
       queueAt (h.broadcast sid m ex) s p = some q ∨
       queueAt (h.broadcast sid m ex) s p = some (q ++ [m])) ∧
    (∀ q m0, send_personal q m0 = q ∨ send_personal q m0 = q ++ [m0]) := by
  refine ⟨broadcast_sessionState h sid m ex,
          fun s => activeKeys_broadcast h sid m ex s, ?_, ?_⟩
  · intro s p q hq
    rw [queueAt_broadcast]
    by_cases hs : s = sid
    · rw [if_pos hs]
      subst hs
      unfold queueAt at hq
      cases hl : lookupKey s h.active with
      | none => rw [hl] at hq; cases hq
      | some conns =>
        rw [hl] at hq
        have hq' : lookupKey p conns = some q := hq
        rw [Option.getD_some, hq']
        by_cases hex : p ∈ ex
        · left; simp [hex]
        · by_cases hlen : q.length < maxsize
          · right; simp [hex, put_nowait, hlen]
          · left; simp [hex, put_nowait, hlen]
    · rw [if_neg hs]; left; exact hq
  · intro q m0
    unfold send_personal put_nowait
    by_cases hlen : q.length < maxsize
    · right; rw [if_pos hlen]
    · left; rw [if_neg hlen]

/-- C9 witness: the frame theorem applied to a concrete hub with one session
and one registered channel. -/
theorem c9_delivery_frame_witness :
    queueAt (Hub.broadcast ⟨[(1, [(2, [])])], []⟩ 1 (Msg.other "x") []) 1 2 = some [] ∨
    queueAt (Hub.broadcast ⟨[(1, [(2, [])])], []⟩ 1 (Msg.other "x") []) 1 2 =
      some ([] ++ [Msg.other "x"]) :=
  (c9_delivery_frame ⟨[(1, [(2, [])])], []⟩ 1 (Msg.other "x") []).2.2.1 1 2 []
    (by decide)

set_option maxRecDepth 4096 in
/-- C3 counterexample: with a registered, non excluded channel whose queue is
at the 256 message capacity, broadcast enqueues nothing on it — the queue is
left unchanged and the message is not in it — so the claim that the message
is enqueued exactly once onto every registered non excluded channel fails. -/
theorem c3_broadcast_full_counterexample :
    queueAt (Hub.broadcast ⟨[(1, [(2, List.replicate 256 Msg.sentinel)])], []⟩ 1
        (Msg.other "x") []) 1 2 = some (List.replicate 256 Msg.sentinel) ∧
    Msg.other "x" ∉ List.replicate 256 Msg.sentinel := by
  exact ⟨by decide, by decide⟩

/-- C3 amended: broadcast is a no-op for an unknown session, and enqueues the
message exactly once onto every registered channel whose participant is not
excluded and whose queue is below the 256 message capacity; an excluded
channel gets nothing and a full channel drops the message, its queue left
unchanged. -/
theorem c3_broadcast_delivery_amended (h : Hub) (sid : Int) (m : Msg)
    (ex : List Int) :
    (lookupKey sid h.active = none → h.broadcast sid m ex = h) ∧
    (∀ conns, lookupKey sid h.active = some conns →
      ∀ p q, lookupKey p conns = some q →
        queueAt (h.broadcast sid m ex) sid p =
          some (if p ∈ ex then q
                else if q.length < maxsize then q ++ [m] else q)) := by
  constructor
  · intro hn
    unfold Hub.broadcast
    simp [hn]
  · intro conns hc p q hq
    rw [queueAt_broadcast, if_pos rfl, hc, Option.getD_some, hq]
    by_cases hex : p ∈ ex
    · simp [hex]
    · simp [hex, put_nowait]

/-- C3 witness: the amended theorem applied to a concrete hub with one
session, one registered channel with a short queue and an empty exclude set. -/
theorem c3_broadcast_delivery_amended_witness :
    queueAt (Hub.broadcast ⟨[(1, [(2, [])])], []⟩ 1 (Msg.other "y") []) 1 2 =
      some [Msg.other "y"] := by
  have := (c3_broadcast_delivery_amended ⟨[(1, [(2, [])])], []⟩ 1 (Msg.other "y")
    []).2 [(2, [])] (by decide) 2 [] (by decide)
  simpa using this

/-- C7: a channel at the fixed capacity of 256 messages drops a further
pushed message — send_personal returns the queue unchanged, a broadcast
leaves the full queue unchanged — and the drop does not affect delivery to
any other registered recipient with spare capacity. -/
theorem c7_queue_capacity_drop (q : List Msg) (m : Msg) (h : Hub) (sid : Int)
    (ex : List Int) (conns : List (Int × List Msg))
    (hq : q.length = maxsize) (hc : lookupKey sid h.active = some conns) :
    send_personal q m = q ∧
    (∀ pid, lookupKey pid conns = some q →
       queueAt (h.broadcast sid m ex) sid pid = some q) ∧
    (∀ pid qp, lookupKey pid conns = some qp → pid ∉ ex → qp.length < maxsize →
       queueAt (h.broadcast sid m ex) sid pid = some (qp ++ [m])) := by
  refine ⟨?_, ?_, ?_⟩
  · unfold send_personal put_nowait
    rw [if_neg (by rw [hq]; exact lt_irrefl _)]
  · intro pid hp
    rw [queueAt_broadcast, if_pos rfl, hc, Option.getD_some, hp]
    by_cases hex : pid ∈ ex
    · simp [hex]
    · simp [hex, put_nowait, hq]
  · intro pid qp hp hex hlen
    rw [queueAt_broadcast, if_pos rfl, hc, Option.getD_some, hp]
    simp [hex, put_nowait, hlen]

theorem disconnect_active (h : Hub) (sid pid : Int) :
    (h.disconnect sid pid).active =
      (match lookupKey sid h.active with
       | none => h.active
       | some conns => dictSet h.active sid (dictPop conns pid)) := by
  unfold Hub.disconnect
  cases lookupKey sid h.active <;> rfl

theorem disconnect_sessionState (h : Hub) (sid pid : Int) :
    (h.disconnect sid pid).sessionState =
      (match lookupKey sid h.sessionState with
       | none => h.sessionState
       | some s => dictSet h.sessionState sid
           { s with connections := keyRemove s.connections pid }) := by
  unfold Hub.disconnect
  cases lookupKey sid h.sessionState <;> rfl

set_option maxRecDepth 4096 in
/-- C7 witness: a hub with one full channel and one empty channel; the full
one keeps its 256 messages, the empty one receives the broadcast message. -/
theorem c7_queue_capacity_drop_witness :
    send_personal (List.replicate 256 Msg.sentinel) (Msg.other "z") =
      List.replicate 256 Msg.sentinel ∧
    queueAt (Hub.broadcast ⟨[(1, [(2, List.replicate 256 Msg.sentinel), (3, [])])], []⟩
        1 (Msg.other "z") []) 1 2 = some (List.replicate 256 Msg.sentinel) ∧
    queueAt (Hub.broadcast ⟨[(1, [(2, List.replicate 256 Msg.sentinel), (3, [])])], []⟩
        1 (Msg.other "z") []) 1 3 = some ([] ++ [Msg.other "z"]) := by
  have H := c7_queue_capacity_drop (List.replicate 256 Msg.sentinel) (Msg.other "z")
    ⟨[(1, [(2, List.replicate 256 Msg.sentinel), (3, [])])], []⟩ 1 []
    [(2, List.replicate 256 Msg.sentinel), (3, [])] (by decide) (by decide)
  exact ⟨H.1, H.2.1 2 (by decide), H.2.2 3 [] (by decide) (by decide) (by decide)⟩

set_option maxRecDepth 4096 in
/-- C10 counterexample: when the kicked participant queue is already at the
256 message capacity, the detached queue is returned unchanged and contains
neither the kicked message nor the terminal sentinel, so the claim that the
kicked participant queue receives kicked followed by the sentinel fails. -/
theorem c10_kick_full_counterexample :
    (Hub.kick_participant ⟨[(1, [(2, List.replicate 256 (Msg.other "x"))])], []⟩
        1 2 none).queue = some (List.replicate 256 (Msg.other "x")) ∧
    Msg.kicked "Removed by teacher" ∉ List.replicate 256 (Msg.other "x") ∧
    Msg.sentinel ∉ List.replicate 256 (Msg.other "x") :=
  ⟨by decide, by decide, by decide⟩

/-- C10 amended: kick_participant removes the participant channel from the
registry before the broadcast snapshot, so the detached queue never receives
the participant_kicked broadcast of the same call while every other
registered channel with spare capacity does; the detached queue receives
kicked followed by the sentinel provided it held at most 254 messages. -/
theorem c10_kick_removed_amended (h : Hub) (sid pid : Int)
    (reason : Option String) (q : List Msg) (hq : queueAt h sid pid = some q) :
    queueAt (h.kick_participant sid pid reason).hub sid pid = none ∧
    (q.length ≤ 254 → (h.kick_participant sid pid reason).queue =
       some (q ++ [Msg.kicked (reason.getD "Removed by teacher"), Msg.sentinel])) ∧
    (∀ qf, (h.kick_participant sid pid reason).queue = some qf →
       Msg.participantKicked pid ∉ q → Msg.participantKicked pid ∉ qf) ∧
    (∀ p2 q2, p2 ≠ pid →
       lookupKey p2 ((lookupKey sid h.active).getD []) = some q2 →
       q2.length < maxsize →
       queueAt (h.kick_participant sid pid reason).hub sid p2 =
         some (q2 ++ [Msg.participantKicked pid])) := by
  unfold queueAt at hq
  cases hl : lookupKey sid h.active with
  | none => rw [hl] at hq; cases hq
  | some conns =>
    rw [hl] at hq
    have hq' : lookupKey pid conns = some q := hq
    refine ⟨?_, ?_, ?_, ?_⟩
    · rw [kick_hub_queueAt h sid pid reason conns hl, lookupKey_dictPop_self]
      rfl
    · intro hlen
      rw [kick_queue, hl, Option.getD_some, hq']
      have l1 : q.length < maxsize := by unfold maxsize; omega
      have l2 : q.length + 1 < maxsize := by unfold maxsize; omega
      simp [put_nowait, l1, l2]
    · intro qf hqf hnotin
      rw [kick_queue, hl, Option.getD_some, hq'] at hqf
      injection hqf with hqf
      rw [← hqf]
      dsimp only
      unfold put_nowait
      split_ifs <;> simp_all
    · intro p2 q2 hne hp2 hlen2
      rw [Option.getD_some] at hp2
      rw [kick_hub_queueAt h sid pid reason conns hl,
          lookupKey_dictPop_ne conns pid p2 hne, hp2]
      simp [put_nowait, hlen2]

/-- C10 witness: a session with the kicked participant holding one message
and one further participant with an empty channel. -/
theorem c10_kick_removed_amended_witness :
    queueAt (Hub.kick_participant ⟨[(1, [(2, [Msg.other "a"]), (3, [])])], []⟩
        1 2 none).hub 1 2 = none ∧
    (Hub.kick_participant ⟨[(1, [(2, [Msg.other "a"]), (3, [])])], []⟩
        1 2 none).queue =
      some ([Msg.other "a"] ++ [Msg.kicked "Removed by teacher", Msg.sentinel]) ∧
    queueAt (Hub.kick_participant ⟨[(1, [(2, [Msg.other "a"]), (3, [])])], []⟩
        1 2 none).hub 1 3 = some ([] ++ [Msg.participantKicked 2]) := by
  have H := c10_kick_removed_amended ⟨[(1, [(2, [Msg.other "a"]), (3, [])])], []⟩
    1 2 none [Msg.other "a"] (by decide)
  exact ⟨H.1, H.2.1 (by decide), H.2.2.2 3 [] (by decide) (by decide) (by decide)⟩

/-- C1 counterexample: after kicking participant 2 from session 1, a mute
call re-creates a roster entry for 2 holding only is_muted and still emits a
participant_muted broadcast, so the claim that mute after kick is a no-op
with no entry re-created and no broadcast fails on the code. -/
theorem c1_kick_then_mute_counterexample :
    participantAt (((Hub.connect ⟨[], []⟩ 1 2 20 "B" false).kick_participant
        1 2 none).hub.mute_participant 1 2 true).1 1 2 =
      some { is_muted := some true } ∧
    (((Hub.connect ⟨[], []⟩ 1 2 20 "B" false).kick_participant
        1 2 none).hub.mute_participant 1 2 true).2 =
      [Msg.participantMuted 2 true] :=
  ⟨by decide, by decide⟩

/-- C1 amended: after kick_participant, a subsequent mute_participant is a
no-op only when the session itself is unknown; when the session still exists
it re-creates a roster entry for the kicked participant holding only the
is_muted flag and emits a participant_muted broadcast. -/
theorem c1_kick_then_mute_amended (h : Hub) (sid pid : Int)
    (reason : Option String) (m : Bool) :
    ((lookupKey sid (h.kick_participant sid pid reason).hub.sessionState).isSome →
       participantAt ((h.kick_participant sid pid reason).hub.mute_participant
           sid pid m).1 sid pid = some { is_muted := some m } ∧
       ((h.kick_participant sid pid reason).hub.mute_participant sid pid m).2 =
         [Msg.participantMuted pid m]) ∧
    (lookupKey sid (h.kick_participant sid pid reason).hub.sessionState = none →
       (h.kick_participant sid pid reason).hub.mute_participant sid pid m =
         ((h.kick_participant sid pid reason).hub, [])) := by
  constructor
  · intro hsome
    obtain ⟨s1, hs1⟩ := Option.isSome_iff_exists.mp hsome
    have hpop : lookupKey pid s1.participants = none := by
      have hk := kick_hub_sessionState h sid pid reason
      rw [hk] at hs1
      cases hS : lookupKey sid h.sessionState with
      | none => simp [hS] at hs1
      | some s0 =>
        simp only [hS] at hs1
        rw [lookupKey_dictSet_self] at hs1
        injection hs1 with hs1
        rw [← hs1]
        exact lookupKey_dictPop_self _ _
    constructor
    · rw [mute_participantAt _ sid pid m s1 hs1, hpop]
      rfl
    · exact mute_msgs_of_some _ sid pid m s1 hs1
  · intro hnone
    exact mute_eq_of_none _ sid pid m hnone

/-- C1 witness: the amended theorem applied after connecting and kicking
participant 2 in session 1 of an initially empty hub. -/
theorem c1_kick_then_mute_amended_witness :
    (lookupKey 1 ((Hub.connect ⟨[], []⟩ 1 2 20 "B" false).kick_participant
        1 2 none).hub.sessionState).isSome ∧
    (participantAt (((Hub.connect ⟨[], []⟩ 1 2 20 "B" false).kick_participant
        1 2 none).hub.mute_participant 1 2 false).1 1 2 =
      some { is_muted := some false } ∧
    (((Hub.connect ⟨[], []⟩ 1 2 20 "B" false).kick_participant
        1 2 none).hub.mute_participant 1 2 false).2 =
      [Msg.participantMuted 2 false]) :=
  ⟨by decide, (c1_kick_then_mute_amended (Hub.connect ⟨[], []⟩ 1 2 20 "B" false)
    1 2 none false).1 (by decide)⟩

/-- C4: a disconnect followed by a reconnect preserves the is_muted and
raised_hand flags the participant entry had before the disconnect, while
user_id, name and is_teacher are taken from the new connect call. -/
theorem c4_reconnect_preserves_flags (h : Hub) (sid pid uid2 : Int)
    (nm2 : String) (t2 : Bool) (e : Participant) (m rh : Bool)
    (he : participantAt h sid pid = some e) (hm : e.is_muted = some m)
    (hrh : e.raised_hand = some rh) :
    participantAt ((h.disconnect sid pid).connect sid pid uid2 nm2 t2) sid pid =
      some { user_id := some uid2, name := some nm2, is_muted := some m,
             raised_hand := some rh, is_teacher := some t2 } := by
  unfold participantAt at he
  cases hS : lookupKey sid h.sessionState with
  | none => rw [hS] at he; cases he
  | some s =>
    rw [hS] at he
    have he' : lookupKey pid s.participants = some e := he
    have hd : lookupKey sid (h.disconnect sid pid).sessionState =
        some { s with connections := keyRemove s.connections pid } := by
      rw [disconnect_sessionState]
      simp only [hS]
      exact lookupKey_dictSet_self _ _ _
    unfold Hub.connect participantAt
    rw [lookupKey_dictSet_self]
    simp only [hd, Option.getD_some, he', hm, hrh]
    exact lookupKey_dictSet_self _ _ _

/-- C4 witness: a hub whose session 1 has participant 2 muted and with a
raised hand; after disconnect and reconnect with new name and teacher flag
the two flags survive. -/
theorem c4_reconnect_preserves_flags_witness :
    participantAt ((Hub.disconnect ⟨[], [(1, ⟨[2],
        [(2, ⟨some 20, some "A", some true, some true, some false⟩)],
        connectDefaultPlayback⟩)]⟩ 1 2).connect 1 2 21 "C" true) 1 2 =
      some { user_id := some 21, name := some "C", is_muted := some true,
             raised_hand := some true, is_teacher := some true } :=
  c4_reconnect_preserves_flags ⟨[], [(1, ⟨[2],
      [(2, ⟨some 20, some "A", some true, some true, some false⟩)],
      connectDefaultPlayback⟩)]⟩ 1 2 21 "C" true
    ⟨some 20, some "A", some true, some true, some false⟩ true true
    (by decide) (by decide) (by decide)

/-- C5: disconnect removes only the participant channel — the queues of all
other participants, the active map of other sessions, every roster and every
playback state are unchanged, the participant leaves the connections key set
of the session only — and disconnecting a participant with no registered
channel changes nothing at all. -/
theorem c5_disconnect_frame (h : Hub) (sid pid : Int) :
    queueAt (h.disconnect sid pid) sid pid = none ∧
    (∀ p, p ≠ pid → queueAt (h.disconnect sid pid) sid p = queueAt h sid p) ∧
    (∀ s, s ≠ sid →
       lookupKey s (h.disconnect sid pid).active = lookupKey s h.active) ∧
    (∀ s, (lookupKey s (h.disconnect sid pid).sessionState).map
            SessionEntry.participants =
          (lookupKey s h.sessionState).map SessionEntry.participants) ∧
    (∀ s, (lookupKey s (h.disconnect sid pid).sessionState).map
            SessionEntry.playback =
          (lookupKey s h.sessionState).map SessionEntry.playback) ∧
    pid ∉ connAt (h.disconnect sid pid) sid ∧
    (∀ p, p ≠ pid → (p ∈ connAt (h.disconnect sid pid) sid ↔ p ∈ connAt h sid)) ∧
    (∀ s, s ≠ sid → lookupKey s (h.disconnect sid pid).sessionState =
       lookupKey s h.sessionState) ∧
    ((h.active.map Prod.fst).Nodup → (h.sessionState.map Prod.fst).Nodup →
      queueAt h sid pid = none → pid ∉ connAt h sid →
      h.disconnect sid pid = h) := by
  refine ⟨?_, ?_, ?_, ?_, ?_, ?_, ?_, ?_, ?_⟩
  · unfold queueAt
    rw [disconnect_active]
    cases hA : lookupKey sid h.active with
    | none => simp [hA]
    | some conns => simp [lookupKey_dictSet_self, lookupKey_dictPop_self]
  · intro p hp
    unfold queueAt
    rw [disconnect_active]
    cases hA : lookupKey sid h.active with
    | none => dsimp only; rw [hA]
    | some conns =>
      dsimp only
      rw [lookupKey_dictSet_self]
      exact lookupKey_dictPop_ne conns pid p hp
  · intro s hs
    rw [disconnect_active]
    cases hA : lookupKey sid h.active with
    | none => rfl
    | some conns => exact lookupKey_dictSet_ne _ _ _ _ hs
  · intro s
    rw [disconnect_sessionState]
    cases hS : lookupKey sid h.sessionState with
    | none => rfl
    | some s0 =>
      by_cases hs : s = sid
      · subst hs
        rw [lookupKey_dictSet_self, hS]
        rfl
      · rw [lookupKey_dictSet_ne _ _ _ _ hs]
  · intro s
    rw [disconnect_sessionState]
    cases hS : lookupKey sid h.sessionState with
    | none => rfl
    | some s0 =>
      by_cases hs : s = sid
      · subst hs
        rw [lookupKey_dictSet_self, hS]
        rfl
      · rw [lookupKey_dictSet_ne _ _ _ _ hs]
  · unfold connAt
    rw [disconnect_sessionState]
    cases hS : lookupKey sid h.sessionState with
    | none => simp [hS]
    | some s0 =>
      rw [lookupKey_dictSet_self]
      simp [mem_keyRemove]
  · intro p hp
    unfold connAt
    rw [disconnect_sessionState]
    cases hS : lookupKey sid h.sessionState with
    | none => dsimp only; rw [hS]
    | some s0 =>
      rw [lookupKey_dictSet_self]
      simp [mem_keyRemove, hp]
  · intro s hs
    rw [disconnect_sessionState]
    cases hS : lookupKey sid h.sessionState with
    | none => rfl
    | some s0 => exact lookupKey_dictSet_ne _ _ _ _ hs
  · intro hnd1 hnd2 hqn hcn
    have hA2 : (h.disconnect sid pid).active = h.active := by
      rw [disconnect_active]
      cases hA : lookupKey sid h.active with
      | none => rfl
      | some conns =>
        dsimp only
        unfold queueAt at hqn
        rw [hA] at hqn
        have hq' : lookupKey pid conns = none := hqn
        rw [dictPop_eq_self conns pid (lookupKey_none_forall conns pid hq')]
        exact dictSet_eq_self h.active sid conns hA hnd1
    have hS2 : (h.disconnect sid pid).sessionState = h.sessionState := by
      rw [disconnect_sessionState]
      cases hS : lookupKey sid h.sessionState with
      | none => rfl
      | some s0 =>
        dsimp only
        unfold connAt at hcn
        rw [hS] at hcn
        have hc' : pid ∉ s0.connections := by simpa using hcn
        rw [keyRemove_eq_self s0.connections pid hc']
        exact dictSet_eq_self h.sessionState sid s0 hS hnd2
    have hsplit : h.disconnect sid pid =
        ⟨(h.disconnect sid pid).active, (h.disconnect sid pid).sessionState⟩ := rfl
    rw [hsplit, hA2, hS2]

/-- C5 witness: session 1 holds a channel for participant 3 and a roster
entry for participant 2 who has no channel; disconnecting 2 changes nothing. -/
theorem c5_disconnect_frame_witness :
    Hub.disconnect ⟨[(1, [(3, [])])], [(1, ⟨[3],
        [(2, ⟨some 20, some "A", some false, some false, some false⟩)],
        connectDefaultPlayback⟩)]⟩ 1 2 =
      ⟨[(1, [(3, [])])], [(1, ⟨[3],
        [(2, ⟨some 20, some "A", some false, some false, some false⟩)],
        connectDefaultPlayback⟩)]⟩ :=
  (c5_disconnect_frame ⟨[(1, [(3, [])])], [(1, ⟨[3],
      [(2, ⟨some 20, some "A", some false, some false, some false⟩)],
      connectDefaultPlayback⟩)]⟩ 1 2).2.2.2.2.2.2.2.2
    (by decide) (by decide) (by decide) (by decide)

set_option maxRecDepth 4096 in
/-- C6 counterexample: close_session on a session whose only channel already
holds 256 messages leaves that detached queue unchanged, so it contains
neither session_ended nor the terminal sentinel — the claim that every
channel registered at call time receives both fails. -/
theorem c6_close_session_full_counterexample :
    (Hub.close_session ⟨[(1, [(2, List.replicate 256 (Msg.other "x"))])],
        [(1, connectDefaultSession)]⟩ 1).channels =
      [(2, List.replicate 256 (Msg.other "x"))] ∧
    Msg.sessionEnded ∉ List.replicate 256 (Msg.other "x") ∧
    Msg.sentinel ∉ List.replicate 256 (Msg.other "x") :=
  ⟨by decide, by decide, by decide⟩

/-- C6 amended: after close_session the session is absent from both the
active channel map and the SESSION_STATE registry, and every channel that was
registered for the session at call time and held at most 254 messages
receives session_ended followed by the terminal sentinel; a fuller channel
may miss one or both because the pushes are dropped on a full queue. -/
theorem c6_close_session_amended (h : Hub) (sid : Int) :
    lookupKey sid (h.close_session sid).hub.active = none ∧
    lookupKey sid (h.close_session sid).hub.sessionState = none ∧
    (∀ p q, (p, q) ∈ (lookupKey sid h.active).getD [] → q.length ≤ 254 →
       (p, q ++ [Msg.sessionEnded, Msg.sentinel]) ∈
         (h.close_session sid).channels) := by
  refine ⟨?_, ?_, ?_⟩
  · unfold Hub.close_session
    exact lookupKey_dictPop_self _ _
  · unfold Hub.close_session
    exact lookupKey_dictPop_self _ _
  · intro p q hmem hlen
    unfold Hub.close_session
    dsimp only
    have l1 : q.length < maxsize := by unfold maxsize; omega
    have l2 : q.length + 1 < maxsize := by unfold maxsize; omega
    have himg := List.mem_map_of_mem
      (fun pq : Int × List Msg =>
        (pq.1, put_nowait (put_nowait pq.2 Msg.sessionEnded) Msg.sentinel)) hmem
    simpa [put_nowait, l1, l2] using himg

/-- C6 witness: one session with one empty channel; it receives session_ended
and the sentinel and the session disappears from both maps. -/
theorem c6_close_session_amended_witness :
    lookupKey 1 (Hub.close_session ⟨[(1, [(2, [])])],
        [(1, connectDefaultSession)]⟩ 1).hub.active = none ∧
    lookupKey 1 (Hub.close_session ⟨[(1, [(2, [])])],
        [(1, connectDefaultSession)]⟩ 1).hub.sessionState = none ∧
    (2, [] ++ [Msg.sessionEnded, Msg.sentinel]) ∈
      (Hub.close_session ⟨[(1, [(2, [])])], [(1, connectDefaultSession)]⟩
        1).channels := by
  have H := c6_close_session_amended ⟨[(1, [(2, [])])],
    [(1, connectDefaultSession)]⟩ 1
  exact ⟨H.1, H.2.1, H.2.2 2 [] (by decide) (by decide)⟩

/-- C2 counterexample: connect creates the session with status stopped and no
audio, and audio_pause then sets status paused while audio_id is still none,
violating the playback invariant; so the claim that the invariant holds after
every hub operation (audio_pause included) fails. -/
theorem c2_playback_invariant_counterexample :
    playbackAt ((Hub.connect ⟨[], []⟩ 1 10 100 "A" true).audio_pause 1 0).1 1 =
      some { audio_id := none, status := some "paused", speed := some 1,
             position := some 0, title := none, duration := none } ∧
    ¬ InvAll ((Hub.connect ⟨[], []⟩ 1 10 100 "A" true).audio_pause 1 0).1 :=
  ⟨by decide, by decide⟩

/-- C2 amended: the playback invariant (status other than stopped implies a
selected audio id) is preserved by connect, audio_select and audio_play;
audio_pause and the REST control handler preserve it only when the playback
of the target session already has a non null audio_id — audio_pause on a
session with no selected audio produces status paused with audio_id none. -/
theorem c2_playback_invariant_amended (h : Hub) (hInv : InvAll h) :
    (∀ sid pid uid nm t, InvAll (h.connect sid pid uid nm t)) ∧
    (∀ sid aid title, InvAll (h.audio_select sid aid title).1) ∧
    (∀ sid aid sp pos, InvAll (h.audio_play sid aid sp pos).1) ∧
    (∀ sid pos,
       (lookupKey sid h.sessionState).all (fun s => s.playback.audio_id.isSome) →
       InvAll (h.audio_pause sid pos).1) ∧
    (∀ db sid c h2 msgs act,
       (lookupKey sid h.sessionState).all (fun s => s.playback.audio_id.isSome) →
       control_audio_playback h db sid c = .ok (h2, msgs, act) → InvAll h2) := by
  refine ⟨?_, ?_, ?_, ?_, ?_⟩
  · intro sid pid uid nm t
    have hsok : PlaybackOk
        ((lookupKey sid h.sessionState).getD connectDefaultSession).playback := by
      cases hS : lookupKey sid h.sessionState with
      | none => decide
      | some s0 => exact hInv (sid, s0) (lookupKey_mem _ _ _ hS)
    exact invAll_mk _ _ _ _ hInv hsok
  · intro sid aid title
    unfold Hub.audio_select
    dsimp only
    apply invAll_broadcast
    exact invAll_mk _ _ _ _ hInv (fun hne => absurd rfl hne)
  · intro sid aid sp pos
    unfold Hub.audio_play
    cases hS : lookupKey sid h.sessionState with
    | none => exact hInv
    | some s0 =>
      dsimp only
      apply invAll_broadcast
      exact invAll_mk _ _ _ _ hInv (fun _ hh => Option.noConfusion hh)
  · intro sid pos hall
    unfold Hub.audio_pause
    cases hS : lookupKey sid h.sessionState with
    | none => exact hInv
    | some s0 =>
      dsimp only
      apply invAll_broadcast
      refine invAll_mk _ _ _ _ hInv ?_
      rw [hS] at hall
      have haid : s0.playback.audio_id.isSome := by simpa using hall
      intro _ hnone
      have hnone' : s0.playback.audio_id = none := hnone
      rw [hnone'] at haid
      simp at haid
  · intro db sid c h2 msgs act hall hok
    unfold control_audio_playback at hok
    cases hS : lookupKey sid h.sessionState with
    | none => simp [hS] at hok
    | some s0 =>
      simp only [hS] at hok
      cases hres : (match c.audio_id with
                    | some a => some a
                    | none => s0.playback.audio_id) with
      | none =>
        simp only [hres] at hok
        exact Except.noConfusion hok
      | some aid =>
        simp only [hres] at hok
        cases hdb : db aid with
        | none =>
          simp only [hdb] at hok
          exact Except.noConfusion hok
        | some td =>
          obtain ⟨title, duration⟩ := td
          simp only [hdb] at hok
          rw [hS] at hall
          have haid : s0.playback.audio_id.isSome := by simpa using hall
          by_cases hact : c.action = "play"
          · rw [if_pos hact] at hok
            injection hok with e1
            injection e1 with e1 e2
            subst e1
            apply invAll_broadcast
            exact invAll_mk _ _ _ _ hInv (fun _ hh => Option.noConfusion hh)
          · rw [if_neg hact] at hok
            by_cases hact2 : c.action = "pause"
            · rw [if_pos hact2] at hok
              injection hok with e1
              injection e1 with e1 e2
              subst e1
              apply invAll_broadcast
              refine invAll_mk _ _ _ _ hInv ?_
              intro _ hnone
              have hnone' : s0.playback.audio_id = none := hnone
              rw [hnone'] at haid
              simp at haid
            · rw [if_neg hact2] at hok
              by_cases hact3 : c.action = "seek"
              · rw [if_pos hact3] at hok
                injection hok with e1
                injection e1 with e1 e2
                subst e1
                apply invAll_broadcast
                refine invAll_mk _ _ _ _ hInv ?_
                intro _ hnone
                have hnone' : s0.playback.audio_id = none := hnone
                rw [hnone'] at haid
                simp at haid
              · rw [if_neg hact3] at hok
                exact Except.noConfusion hok

/-- C2 witness: the amended theorem applied to a hub whose session 1 has an
audio selected and playing; pausing preserves the invariant there. -/
theorem c2_playback_invariant_amended_witness :
    InvAll (Hub.mk [] [(1, ⟨[], [],
      ⟨some 7, some "playing", some 1, some 0, some "T", none⟩⟩)]) ∧
    InvAll ((Hub.mk [] [(1, ⟨[], [],
      ⟨some 7, some "playing", some 1, some 0, some "T", none⟩⟩)]).audio_pause
        1 2).1 :=
  ⟨by decide, (c2_playback_invariant_amended (Hub.mk [] [(1, ⟨[], [],
      ⟨some 7, some "playing", some 1, some 0, some "T", none⟩⟩)])
    (by decide)).2.2.2.1 1 2 (by decide)⟩

/-- C8: from audio_select of audio 7 with title T, a control play at position
3 then a control seek at position 5 leave the playback with audio_id 7,
status playing and position 5, and the seek step emits exactly one broadcast
whose type is audio_play and not audio_pause; a control seek issued while the
status is paused records only the position, leaves the status paused and
broadcasts audio_seek. -/
theorem c8_select_play_seek (h : Hub) (db : Int → Option (String × Option ℚ))
    (sid : Int) (t0 : String) (d0 : Option ℚ) (sp sp2 : ℚ)
    (hdb : db 7 = some (t0, d0)) :
    (∃ h2 h3,
      control_audio_playback (h.audio_select sid 7 (some "T")).1 db sid
          ⟨none, sp, 3, "play"⟩ =
        .ok (h2, [Msg.audioEvent "play" 7 sp 3 t0 d0], "play") ∧
      control_audio_playback h2 db sid ⟨none, sp2, 5, "seek"⟩ =
        .ok (h3, [Msg.audioEvent "play" 7 sp2 5 t0 d0], "play") ∧
      playbackAt h3 sid =
        some ⟨some 7, some "playing", some sp, some 5, some t0, d0⟩ ∧
      msgType (Msg.audioEvent "play" 7 sp2 5 t0 d0) = some "audio_play" ∧
      msgType (Msg.audioEvent "play" 7 sp2 5 t0 d0) ≠ some "audio_pause") ∧
    (∀ h4 s4 aid4 t4 d4 (sp4 pos4 : ℚ),
       lookupKey sid h4.sessionState = some s4 →
       s4.playback.status = some "paused" →
       s4.playback.audio_id = some aid4 → db aid4 = some (t4, d4) →
       ∃ h5, control_audio_playback h4 db sid ⟨none, sp4, pos4, "seek"⟩ =
           .ok (h5, [Msg.audioEvent "seek" aid4 sp4 pos4 t4 d4], "seek") ∧
         playbackAt h5 sid =
           some ⟨some aid4, some "paused", s4.playback.speed, some pos4,
                 s4.playback.title, s4.playback.duration⟩) := by
  constructor
  · have hs1 : lookupKey sid (h.audio_select sid 7 (some "T")).1.sessionState =
        some ⟨((lookupKey sid h.sessionState).getD emptySession).connections,
              ((lookupKey sid h.sessionState).getD emptySession).participants,
              ⟨some 7, some "stopped",
               ((lookupKey sid h.sessionState).getD emptySession).playback.speed,
               some 0, some "T",
               ((lookupKey sid h.sessionState).getD emptySession).playback.duration⟩⟩ := by
      unfold Hub.audio_select
      dsimp only
      rw [broadcast_sessionState]
      exact lookupKey_dictSet_self _ _ _
    obtain ⟨H2, c2, q2, e2, hs2⟩ : ∃ H2 c2 q2,
        control_audio_playback (h.audio_select sid 7 (some "T")).1 db sid
            ⟨none, sp, 3, "play"⟩ =
          .ok (H2, [Msg.audioEvent "play" 7 sp 3 t0 d0], "play") ∧
        lookupKey sid H2.sessionState =
          some ⟨c2, q2, ⟨some 7, some "playing", some sp, some 3, some t0, d0⟩⟩ := by
      refine ⟨_, ((lookupKey sid h.sessionState).getD emptySession).connections,
        ((lookupKey sid h.sessionState).getD emptySession).participants,
        control_play_eq (h.audio_select sid 7 (some "T")).1 db sid sp 3 _
          7 t0 d0 hs1 rfl hdb, ?_⟩
      rw [broadcast_sessionState]
      exact lookupKey_dictSet_self _ _ _
    have e3 := control_seek_eq H2 db sid sp2 5
      ⟨c2, q2, ⟨some 7, some "playing", some sp, some 3, some t0, d0⟩⟩
      7 t0 d0 hs2 rfl hdb
    refine ⟨H2, _, e2, e3, ?_, by simp only [msgType]; decide,
      by simp only [msgType]; decide⟩
    unfold playbackAt
    rw [broadcast_sessionState]
    rw [lookupKey_dictSet_self]
    rfl
  · intro h4 s4 aid4 t4 d4 sp4 pos4 hS4 hstat haid hdb4
    have e := control_seek_eq h4 db sid sp4 pos4 s4 aid4 t4 d4 hS4 haid hdb4
    rw [hstat, haid] at e
    rw [if_neg (by decide : ¬ (some "paused" = some "playing"))] at e
    refine ⟨_, e, ?_⟩
    unfold playbackAt
    rw [broadcast_sessionState]
    rw [lookupKey_dictSet_self]
    rfl

/-- C8 witness: the sequence run from the empty hub with a database holding
audio 7 with title T and duration 100. -/
theorem c8_select_play_seek_witness :
    (fun a => if a = 7 then some ("T", some 100) else none) 7 =
      some ("T", (some 100 : Option ℚ)) ∧
    (∃ h2 h3,
      control_audio_playback ((Hub.mk [] []).audio_select 1 7 (some "T")).1
          (fun a => if a = 7 then some ("T", some 100) else none) 1
          ⟨none, 1, 3, "play"⟩ =
        .ok (h2, [Msg.audioEvent "play" 7 1 3 "T" (some 100)], "play") ∧
      control_audio_playback h2
          (fun a => if a = 7 then some ("T", some 100) else none) 1
          ⟨none, 2, 5, "seek"⟩ =
        .ok (h3, [Msg.audioEvent "play" 7 2 5 "T" (some 100)], "play") ∧
      playbackAt h3 1 =
        some ⟨some 7, some "playing", some 1, some 5, some "T", some 100⟩ ∧
      msgType (Msg.audioEvent "play" 7 2 5 "T" (some 100)) = some "audio_play" ∧
      msgType (Msg.audioEvent "play" 7 2 5 "T" (some 100)) ≠ some "audio_pause") :=
  ⟨by decide, (c8_select_play_seek (Hub.mk [] [])
    (fun a => if a = 7 then some ("T", some 100) else none) 1 "T" (some 100) 1 2
    (by decide)).1⟩

end WsManager
